import Mathlib

/-!
# Verification of the QuickNavPlugin culling engine

Shallow embedding of `src/plugins/QuickNavPlugin/QuickNavPlugin.js`:
the detail-cull predicate engine, the cull-set store interaction, the
motion state machine (fast mode, fade, delayed recovery) and the
bounds-expanding KD-tree.  JavaScript numbers are modelled as rationals
(`ℚ`), the per-object cull-state store as explicit boolean maps together
with a log of the store writes the plugin performs.
-/

namespace QuickNav

/-- Axis-aligned bounding box: min/max per axis, source order
`[xmin, ymin, zmin, xmax, ymax, zmax]`. -/
structure AABB where
  xmin : ℚ
  ymin : ℚ
  zmin : ℚ
  xmax : ℚ
  ymax : ℚ
  zmax : ℚ
deriving DecidableEq, Repr

/-- A scene object as consumed by the plugin (spec section 3, SceneObject):
triangle count, AABB, and the optional semantic type tag reached through
`viewer.metaScene.metaObjects[entity.id].type`.  `diagSize` models the
value of the external primitive `math.getAABB3Diag(entity.aabb)`
(assumed-correct math layer, out of scope per spec section 1). -/
structure Entity where
  numTriangles : ℕ
  diagSize : ℚ
  metaType : Option String
  aabb : AABB
deriving DecidableEq, Repr

/-- The detail-cull configuration fields of the plugin
(`_hideSmallerThan`, `_hideMoreTrianglesThan`, `_hideTypes`,
`_dontHideTypes`; the two type maps are modelled as list membership). -/
structure CullConfig where
  hideSmallerThan : ℚ
  hideMoreTrianglesThan : ℚ
  hideTypes : List String
  dontHideTypes : List String
deriving DecidableEq, Repr

/-- One write the plugin performs against the external `ObjectCullStates`
store: either `setObjectDetailCulled(idx, v)` or
`setObjectViewCulled(idx, v)`. -/
inductive WriteEvent where
  | detail (idx : ℕ) (culled : Bool)
  | view (idx : ℕ) (culled : Bool)
deriving DecidableEq, Repr

/-- Threshold part of the per-object cull decision, source lines 398-420
of `_buildCullObjects`: a threshold is enabled iff it is non-zero. -/
def entityThresholdCull (cfg : CullConfig) (e : Entity) : Bool :=
  if cfg.hideMoreTrianglesThan ≠ 0 then
    if cfg.hideSmallerThan ≠ 0 then
      decide (cfg.hideMoreTrianglesThan ≤ (e.numTriangles : ℚ)) &&
        decide (e.diagSize ≤ cfg.hideSmallerThan)
    else
      decide (cfg.hideMoreTrianglesThan ≤ (e.numTriangles : ℚ))
  else
    if cfg.hideSmallerThan ≠ 0 then
      decide (e.diagSize ≤ cfg.hideSmallerThan)
    else
      false

/-- Per-object cull decision of `_buildCullObjects` (source lines 386-421):
if a meta object exists, the never-hide map wins, then the always-hide
map, otherwise the thresholds decide.  An object without a meta object
goes straight to the thresholds. -/
def entityNeedCull (cfg : CullConfig) (e : Entity) : Bool :=
  match e.metaType with
  | some t =>
    if cfg.dontHideTypes.contains t then false
    else if cfg.hideTypes.contains t then true
    else entityThresholdCull cfg e
  | none => entityThresholdCull cfg e

/-- The index-collecting loop of `_buildCullObjects`: walks the store's
object list in index order starting at `start`, pushing the index of
every object that needs culling. -/
def buildCullLoop (cfg : CullConfig) : List Entity → ℕ → List ℕ
  | [], _ => []
  | e :: rest, idx =>
    if entityNeedCull cfg e then idx :: buildCullLoop cfg rest (idx + 1)
    else buildCullLoop cfg rest (idx + 1)

/-- The new cull list computed by `_buildCullObjects` over all objects of
the cull-state store. -/
def buildCullList (cfg : CullConfig) (entities : List Entity) : List ℕ :=
  buildCullLoop cfg entities 0

/-- Modelled from the spec: the reference fixed-precedence detail-cull
predicate of spec section 4.3 steps 1-6, written from the spec's words to
be compared against the source's `entityNeedCull`.  "Enabled" means the
threshold is non-zero. -/
def specTypeInSet (t : Option String) (l : List String) : Bool :=
  match t with
  | none => false
  | some ty => l.contains ty

/-- Modelled from the spec: rule order of spec section 4.3 — never-hide
is terminal, then always-hide, then both thresholds, then each single
threshold, else keep. -/
def specCullPred (cfg : CullConfig) (e : Entity) : Bool :=
  if specTypeInSet e.metaType cfg.dontHideTypes then false
  else if specTypeInSet e.metaType cfg.hideTypes then true
  else if cfg.hideMoreTrianglesThan ≠ 0 ∧ cfg.hideSmallerThan ≠ 0 then
    decide ((e.numTriangles : ℚ) ≥ cfg.hideMoreTrianglesThan) &&
      decide (e.diagSize ≤ cfg.hideSmallerThan)
  else if cfg.hideMoreTrianglesThan ≠ 0 then
    decide ((e.numTriangles : ℚ) ≥ cfg.hideMoreTrianglesThan)
  else if cfg.hideSmallerThan ≠ 0 then
    decide (e.diagSize ≤ cfg.hideSmallerThan)
  else false

/-- The timeout constant `timeoutDuration` (source line 108), in
milliseconds. -/
def timeoutDuration : ℚ := 600

/-- The whole mutable state the embedded operations act on: the scene's
effect toggles, the plugin's configuration fields, the cull-set backing
array (`_cullSet`) with its tracked length (`_cullSetLen`), the external
cull-state store (`detailCulled` / `viewCulled` flags plus the log of the
store writes performed), and the state-machine locals of the constructor
closure (`timer`, `fastMode`, `down`) together with the timer handles
(`_pInterval`, `_pInterval2`) and the overlay image (`_img`). -/
@[ext]
structure MachineState where
  pbr : Bool
  saoEnabled : Bool
  edges : Bool
  hidePBR : Bool
  hideSAO : Bool
  hideEdges : Bool
  hideSmallerThan : ℚ
  hideMoreTrianglesThan : ℚ
  hideTypes : List String
  dontHideTypes : List String
  entities : List Entity
  cullSet : List ℕ
  cullSetLen : ℕ
  cullSetDirty : Bool
  culling : Bool
  detailCulled : ℕ → Bool
  viewCulled : ℕ → Bool
  writes : List WriteEvent
  timer : ℚ
  fastMode : Bool
  down : Bool
  frustumDirty : Bool
  pInterval : Bool
  pInterval2 : Bool
  imgInit : Bool

/-- The plugin's current cull configuration. -/
def MachineState.cullConfig (s : MachineState) : CullConfig :=
  { hideSmallerThan := s.hideSmallerThan
    hideMoreTrianglesThan := s.hideMoreTrianglesThan
    hideTypes := s.hideTypes
    dontHideTypes := s.dontHideTypes }

/-- Modelled from the spec: `ObjectCullStates.setObjectDetailCulled`
(external store, spec section 3 CullState) — sets the per-object
`detailCulled` boolean; the call is also logged. -/
def setObjectDetailCulled (s : MachineState) (idx : ℕ) (v : Bool) : MachineState :=
  { s with detailCulled := Function.update s.detailCulled idx v
           writes := s.writes ++ [WriteEvent.detail idx v] }

/-- Modelled from the spec: `ObjectCullStates.setObjectViewCulled`
(external store, spec section 3 CullState) — sets the per-object
`viewCulled` boolean; the call is also logged. -/
def setObjectViewCulled (s : MachineState) (idx : ℕ) (v : Bool) : MachineState :=
  { s with viewCulled := Function.update s.viewCulled idx v
           writes := s.writes ++ [WriteEvent.view idx v] }

/-- `_buildCullObjects` (source lines 372-423): first resets `viewCulled`
to false for the tracked prefix `_cullSet[0.._cullSetLen)` of the previous
cull set, then recomputes the cull list.  The JavaScript write-back
`this._cullSet[this._cullSetLen++] = objectIdx` overwrites the first
entries of the backing array and leaves any stale tail beyond the new
length in place. -/
def buildCullObjectsOp (s : MachineState) : MachineState :=
  let s1 := (s.cullSet.take s.cullSetLen).foldl
    (fun t idx => setObjectViewCulled t idx false) s
  let newSet := buildCullList s1.cullConfig s1.entities
  { s1 with cullSet := newSet ++ s1.cullSet.drop newSet.length
            cullSetLen := newSet.length
            cullSetDirty := false }

/-- `_setObjectsCulled(culled)` (source lines 358-370): rebuilds the cull
set if dirty, then sets `detailCulled := culled` for every entry of the
full backing array (the loop bound is `this._cullSet.length`, not
`_cullSetLen`), and records `_culling`. -/
def setObjectsCulledOp (culled : Bool) (s : MachineState) : MachineState :=
  let s1 := if s.cullSetDirty then buildCullObjectsOp s else s
  let s2 := s1.cullSet.foldl (fun t idx => setObjectDetailCulled t idx culled) s1
  { s2 with culling := culled }

/-- `set hideSmallerThan` (source lines 262-265): undefined/null becomes
0, every other value is stored unchanged; the cull set is marked dirty. -/
def setHideSmallerThanOp (value : Option ℚ) (s : MachineState) : MachineState :=
  { s with hideSmallerThan := value.getD 0, cullSetDirty := true }

/-- `set hideMoreTrianglesThan` (source lines 281-284): undefined/null
becomes 0, every other value is stored unchanged; the cull set is marked
dirty. -/
def setHideMoreTrianglesThanOp (value : Option ℚ) (s : MachineState) : MachineState :=
  { s with hideMoreTrianglesThan := value.getD 0, cullSetDirty := true }

/-- `set hideTypes` (source lines 300-307): undefined/null becomes the
empty list (`hideTypes || []`); membership map rebuilt; dirty. -/
def setHideTypesOp (value : Option (List String)) (s : MachineState) : MachineState :=
  { s with hideTypes := value.getD [], cullSetDirty := true }

/-- `set dontHideTypes` (source lines 323-330): undefined/null becomes
the empty list; membership map rebuilt; dirty. -/
def setDontHideTypesOp (value : Option (List String)) (s : MachineState) : MachineState :=
  { s with dontHideTypes := value.getD [], cullSetDirty := true }

/-- `_cancelFade` (source lines 506-520): returns immediately when no
overlay image exists; otherwise clears both the fade interval
`_pInterval` and the pending delayed recovery `_pInterval2` and hides the
overlay. -/
def cancelFadeOp (s : MachineState) : MachineState :=
  if s.imgInit = false then s
  else { s with pInterval := false, pInterval2 := false }

/-- `startHiding` (source lines 119-136): resets the idle countdown; when
not already in fast mode, cancels any fade/pending recovery, disables
each configured effect, applies detail culling and enters fast mode;
always marks the frustum dirty. -/
def startHidingOp (s : MachineState) : MachineState :=
  let s0 := { s with timer := timeoutDuration }
  if s0.fastMode = false then
    let s1 := cancelFadeOp s0
    let s2 := { s1 with
      pbr := if s1.hidePBR then false else s1.pbr
      saoEnabled := if s1.hideSAO then false else s1.saoEnabled
      edges := if s1.hideEdges then false else s1.edges }
    let s3 := setObjectsCulledOp true s2
    { s3 with fastMode := true, frustumDirty := true }
  else
    { s0 with frustumDirty := true }

/-- `_startFade` (source lines 425-483), DOM positioning elided: creates
the overlay image if absent (`_initFade`), clears any running fade
interval, then captures the snapshot (`viewer.getSnapshot`, line 455).
`captureOk = false` models the external capture operation throwing; the
returned boolean is false exactly when the call aborted there, leaving
the state mutations made before the throw in place. -/
def startFadeOp (captureOk : Bool) (s : MachineState) : MachineState × Bool :=
  let s1 := { s with imgInit := true }
  let s2 := { s1 with pInterval := false }
  if captureOk then ({ s2 with pInterval := true }, true)
  else (s2, false)

/-- The scene `tick` handler (source lines 142-165): ignores ticks
outside fast mode; otherwise decrements the countdown and, on expiry,
starts the fade and schedules the delayed recovery (`_pInterval2`) and
leaves fast mode.  If `_startFade` throws (capture unavailable), the
exception propagates out of the handler: neither the scheduling nor
`fastMode = false` executes. -/
def tickOp (dt : ℚ) (captureOk : Bool) (s : MachineState) : MachineState :=
  if s.fastMode = false then s
  else
    let s1 := { s with timer := s.timer - dt }
    if s1.timer ≤ 0 then
      let fr := startFadeOp captureOk s1
      if fr.2 then { fr.1 with pInterval2 := true, fastMode := false }
      else fr.1
    else s1

/-- The delayed recovery callback scheduled by the tick handler (source
lines 150-161): when still pending it re-enables each configured effect
and releases detail culling; a cancelled timeout never runs. -/
def recoveryFireOp (s : MachineState) : MachineState :=
  if s.pInterval2 then
    let s1 := { s with
      pInterval2 := false
      pbr := if s.hidePBR then true else s.pbr
      saoEnabled := if s.hideSAO then true else s.saoEnabled
      edges := if s.hideEdges then true else s.edges }
    setObjectsCulledOp false s1
  else s

/-- `destroy` (source lines 676-711): cancels the fade, resets
`detailCulled` for the tracked prefix `_cullSet[0.._cullSetLen)` only,
and clears the cull set (event unsubscription elided). -/
def destroyOp (s : MachineState) : MachineState :=
  let s1 := cancelFadeOp s
  let s2 := (s1.cullSet.take s1.cullSetLen).foldl
    (fun t idx => setObjectDetailCulled t idx false) s1
  { s2 with cullSet := [], cullSetLen := 0 }

/-- The external events driving the machine.  A tick carries the frame
delta and whether the external frame-capture operation would succeed. -/
inductive PluginEvent where
  | viewMatrix
  | projMatrix
  | boundary
  | mouseDown
  | mouseUp
  | mouseMove
  | tick (dt : ℚ) (captureOk : Bool)
  | recoveryFire

/-- Event dispatch as wired in the constructor (source lines 138-182) and
the scheduler: camera/canvas events call `startHiding`; mouse-move does so
only with a button down; a scheduled recovery callback fires only while
its timeout is still pending. -/
def step : PluginEvent → MachineState → MachineState
  | .viewMatrix, s => startHidingOp s
  | .projMatrix, s => startHidingOp s
  | .boundary, s => startHidingOp s
  | .mouseDown, s => { s with down := true }
  | .mouseUp, s => { s with down := false }
  | .mouseMove, s => if s.down then startHidingOp s else s
  | .tick dt ok, s => tickOp dt ok s
  | .recoveryFire, s => recoveryFireOp s

/-- The constructor's configuration handling (source lines 93-101 and
188-191): the threshold fields start at 409 and 14, the type lists empty
and the cull set dirty; then the public setters are run on the
configuration values, in source order. -/
def constructPlugin (cfgHideSmallerThan cfgHideMoreTrianglesThan : Option ℚ)
    (cfgHideTypes cfgDontHideTypes : Option (List String))
    (entities : List Entity) : MachineState :=
  let s0 : MachineState := {
    pbr := true, saoEnabled := true, edges := true
    hidePBR := true, hideSAO := true, hideEdges := true
    hideSmallerThan := 409, hideMoreTrianglesThan := 14
    hideTypes := [], dontHideTypes := []
    entities := entities, cullSet := [], cullSetLen := 0
    cullSetDirty := true, culling := false
    detailCulled := fun _ => false, viewCulled := fun _ => false
    writes := [], timer := timeoutDuration, fastMode := false, down := false
    frustumDirty := false, pInterval := false, pInterval2 := false
    imgInit := false }
  setDontHideTypesOp cfgDontHideTypes
    (setHideTypesOp cfgHideTypes
      (setHideMoreTrianglesThanOp cfgHideMoreTrianglesThan
        (setHideSmallerThanOp cfgHideSmallerThan s0)))

/-- `MAX_KD_TREE_DEPTH` (source line 6). -/
def MAX_KD_TREE_DEPTH : ℕ := 8

/-- Modelled from the spec: `math.containsAABB3(aabb, aabb2)` (external
math primitive) — whether `aabb` fully contains `aabb2`
(spec section 4.2: "a child's bound fully contains the object's box"). -/
def containsAABB3 (a b : AABB) : Bool :=
  decide (a.xmin ≤ b.xmin) && decide (a.ymin ≤ b.ymin) && decide (a.zmin ≤ b.zmin) &&
    decide (b.xmax ≤ a.xmax) && decide (b.ymax ≤ a.ymax) && decide (b.zmax ≤ a.zmax)

/-- Modelled from the spec: `math.expandAABB3(aabb1, aabb2)` (external
math primitive) — grows `aabb1` to the union of the two boxes
(spec section 4.2: "expand the node's bound to the union with the
object's box"). -/
def expandAABB3 (a b : AABB) : AABB :=
  { xmin := min a.xmin b.xmin
    ymin := min a.ymin b.ymin
    zmin := min a.zmin b.zmin
    xmax := max a.xmax b.xmax
    ymax := max a.ymax b.ymax
    zmax := max a.zmax b.zmax }

/-- A box is well-formed when min ≤ max on every axis. -/
def validAABB (a : AABB) : Bool :=
  decide (a.xmin ≤ a.xmax) && decide (a.ymin ≤ a.ymax) && decide (a.zmin ≤ a.zmax)

/-- Longest-axis selection of `_insertEntityIntoKDTree` (source lines
591-603): `dim` starts at 0 and is bumped to an axis with strictly larger
extent, Y before Z. -/
def splitDim (a : AABB) : ℕ :=
  let l0 := a.xmax - a.xmin
  let l1 := a.ymax - a.ymin
  let l2 := a.zmax - a.zmin
  let dim1 : ℕ := if l0 < l1 then 1 else 0
  let len1 : ℚ := if l0 < l1 then l1 else l0
  if len1 < l2 then 2 else dim1

/-- The left-child box `aabbLeft` (source lines 606-607): a copy of the
node's box whose max on axis `dim` is moved to the midpoint. -/
def halveAABBMax (a : AABB) (dim : ℕ) : AABB :=
  if dim = 0 then { a with xmax := (a.xmin + a.xmax) / 2 }
  else if dim = 1 then { a with ymax := (a.ymin + a.ymax) / 2 }
  else { a with zmax := (a.zmin + a.zmax) / 2 }

/-- The right-child box `aabbRight` (source lines 619-620): a copy of the
node's box whose min on axis `dim` is moved to the midpoint. -/
def halveAABBMin (a : AABB) (dim : ℕ) : AABB :=
  if dim = 0 then { a with xmin := (a.xmin + a.xmax) / 2 }
  else if dim = 1 then { a with ymin := (a.ymin + a.ymax) / 2 }
  else { a with zmin := (a.zmin + a.zmax) / 2 }

/-- A KD-tree node (spec section 3 KDNode): mutable bound, optional
children, overflow list of object indices. -/
inductive KDNode : Type where
  | node (aabb : AABB) (left : Option KDNode) (right : Option KDNode) (objects : List ℕ)

/-- The node's bound. -/
def KDNode.aabb : KDNode → AABB
  | .node a _ _ _ => a

/-- The node's left child. -/
def KDNode.left : KDNode → Option KDNode
  | .node _ l _ _ => l

/-- The node's right child. -/
def KDNode.right : KDNode → Option KDNode
  | .node _ _ r _ => r

/-- The node's overflow list. -/
def KDNode.objects : KDNode → List ℕ
  | .node _ _ _ o => o

/-- `_insertEntityIntoKDTree` (source lines 564-635).  The second
component instruments the recursion: it is the list of the `depth`
arguments of every (recursive) call performed, used to state the depth
bound; the first component is the updated node.  Control flow follows
the source: at max depth overflow immediately; else descend into an
existing child containing the box; else create the missing child slots
by halving along the longest axis, descending into a newly created child
that contains the box; else overflow here and expand the bound. -/
def insertEntityIntoKDTree : KDNode → Entity → ℕ → ℕ → KDNode × List ℕ
  | KDNode.node aabb left right objs, e, objectIdx, depth =>
    if _hdep : MAX_KD_TREE_DEPTH ≤ depth then
      (KDNode.node (expandAABB3 aabb e.aabb) left right (objs ++ [objectIdx]), [depth])
    else
      match left, right with
      | some l, some r =>
        if containsAABB3 l.aabb e.aabb then
          let res := insertEntityIntoKDTree l e objectIdx (depth + 1)
          (KDNode.node aabb (some res.1) (some r) objs, depth :: res.2)
        else if containsAABB3 r.aabb e.aabb then
          let res := insertEntityIntoKDTree r e objectIdx (depth + 1)
          (KDNode.node aabb (some l) (some res.1) objs, depth :: res.2)
        else
          (KDNode.node (expandAABB3 aabb e.aabb) (some l) (some r) (objs ++ [objectIdx]),
            [depth])
      | some l, none =>
        if containsAABB3 l.aabb e.aabb then
          let res := insertEntityIntoKDTree l e objectIdx (depth + 1)
          (KDNode.node aabb (some res.1) none objs, depth :: res.2)
        else
          let aabbRight := halveAABBMin aabb (splitDim aabb)
          if containsAABB3 aabbRight e.aabb then
            let res := insertEntityIntoKDTree (KDNode.node aabbRight none none [])
              e objectIdx (depth + 1)
            (KDNode.node aabb (some l) (some res.1) objs, depth :: res.2)
          else
            (KDNode.node (expandAABB3 aabb e.aabb) (some l)
              (some (KDNode.node aabbRight none none [])) (objs ++ [objectIdx]), [depth])
      | none, some r =>
        if containsAABB3 r.aabb e.aabb then
          let res := insertEntityIntoKDTree r e objectIdx (depth + 1)
          (KDNode.node aabb none (some res.1) objs, depth :: res.2)
        else
          let aabbLeft := halveAABBMax aabb (splitDim aabb)
          if containsAABB3 aabbLeft e.aabb then
            let res := insertEntityIntoKDTree (KDNode.node aabbLeft none none [])
              e objectIdx (depth + 1)
            (KDNode.node aabb (some res.1) (some r) objs, depth :: res.2)
          else
            (KDNode.node (expandAABB3 aabb e.aabb)
              (some (KDNode.node aabbLeft none none [])) (some r) (objs ++ [objectIdx]),
              [depth])
      | none, none =>
        let aabbLeft := halveAABBMax aabb (splitDim aabb)
        if containsAABB3 aabbLeft e.aabb then
          let res := insertEntityIntoKDTree (KDNode.node aabbLeft none none [])
            e objectIdx (depth + 1)
          (KDNode.node aabb (some res.1) none objs, depth :: res.2)
        else
          let aabbRight := halveAABBMin aabb (splitDim aabb)
          if containsAABB3 aabbRight e.aabb then
            let res := insertEntityIntoKDTree (KDNode.node aabbRight none none [])
              e objectIdx (depth + 1)
            (KDNode.node aabb (some (KDNode.node aabbLeft none none [])) (some res.1) objs,
              depth :: res.2)
          else
            (KDNode.node (expandAABB3 aabb e.aabb)
              (some (KDNode.node aabbLeft none none []))
              (some (KDNode.node aabbRight none none [])) (objs ++ [objectIdx]), [depth])
termination_by _ _ _ depth => MAX_KD_TREE_DEPTH - depth
decreasing_by all_goals omega

/-- The updated node of an insertion (first component of
`insertEntityIntoKDTree`). -/
def insertKD (n : KDNode) (e : Entity) (objectIdx depth : ℕ) : KDNode :=
  (insertEntityIntoKDTree n e objectIdx depth).1

/-- A sequence of insertions, each started at the root with depth 1 as
`_buildKDTree` does (source line 559: `depth + 1` with `depth = 0`). -/
def insertAllKD (root : KDNode) (items : List (ℕ × Entity)) : KDNode :=
  items.foldl (fun r p => insertKD r p.2 p.1 1) root

/-- `_buildKDTree` (source lines 546-562): a fresh root whose bound is
the scene's AABB (`scene.getAABB()`, external), then every object is
inserted in index order at depth 1. -/
def buildKDTree (sceneAABB : AABB) (entities : List Entity) : KDNode :=
  insertAllKD (KDNode.node sceneAABB none none []) entities.enum

/-- All object indices registered in a node's subtree (the node's
overflow list and those of all descendants). -/
def subtreeObjects : KDNode → List ℕ
  | .node _ left right objs =>
    objs ++
      (match left with | none => [] | some l => subtreeObjects l) ++
      (match right with | none => [] | some r => subtreeObjects r)

/-- The hereditary KD-node invariant, relative to an environment `env`
giving each object index its box: the node's bound is well-formed,
contains the box of every object in its own overflow list and the bound
of each child, and the children satisfy the same invariant. -/
def goodNode (env : ℕ → AABB) : KDNode → Prop
  | .node a left right objs =>
    validAABB a = true ∧
    (∀ i ∈ objs, containsAABB3 a (env i) = true) ∧
    (match left with
     | none => True
     | some l => containsAABB3 a l.aabb = true ∧ goodNode env l) ∧
    (match right with
     | none => True
     | some r => containsAABB3 a r.aabb = true ∧ goodNode env r)

/-- `growsInto old new`: the new tree extends the old one node-for-node —
every old node survives at the same position with a bound containing its
old bound (bounds only ever grow, never shrink). -/
def growsInto : KDNode → KDNode → Prop
  | .node a1 l1 r1 _, .node a2 l2 r2 _ =>
    containsAABB3 a2 a1 = true ∧
    (match l1, l2 with
     | none, _ => True
     | some c1, some c2 => growsInto c1 c2
     | some _, none => False) ∧
    (match r1, r2 with
     | none, _ => True
     | some c1, some c2 => growsInto c1 c2
     | some _, none => False)

/-! ### Concrete scenario states used by the closed theorems -/

/-- A zero-triangle object of type "A". -/
def entityTypeA : Entity := ⟨0, 1, some "A", ⟨0, 0, 0, 1, 1, 1⟩⟩

/-- A zero-triangle object of type "B". -/
def entityTypeB : Entity := ⟨0, 1, some "B", ⟨0, 0, 0, 1, 1, 1⟩⟩

/-- An untyped object with no triangles and zero diagonal. -/
def smallEntity : Entity := ⟨0, 0, none, ⟨0, 0, 0, 1, 1, 1⟩⟩

/-- A plugin constructed over two objects with `hideTypes = ["A"]` and no
thresholds. -/
def scenarioStart : MachineState :=
  constructPlugin none none (some ["A"]) none [entityTypeA, entityTypeB]

/-- After `_setObjectsCulled(true)`: object 0 (type "A") is detail-culled. -/
def applyTrueState : MachineState := setObjectsCulledOp true scenarioStart

/-- Configuration changed while culled: `hideTypes := ["B"]`. -/
def configChangedState : MachineState := setHideTypesOp (some ["B"]) applyTrueState

/-- The subsequent `_setObjectsCulled(false)`. -/
def applyFalseState : MachineState := setObjectsCulledOp false configChangedState

/-- `destroy()` called after the sequence above. -/
def destroyedState : MachineState := destroyOp applyFalseState

/-- `applyTrueState` with the write log cleared, to observe exactly the
writes of a single subsequent call. -/
def rebuildProbeState : MachineState := { applyTrueState with writes := [] }

/-- A fast-mode state with all effects suppressed and the countdown about
to expire. -/
def fastSuppressedState : MachineState :=
  { applyTrueState with
    fastMode := true
    timer := 1
    pbr := false
    saoEnabled := false
    edges := false }

/-- A state in which the countdown has expired and the delayed recovery
is pending (`_pInterval2` scheduled, overlay image created, fast mode
left). -/
def pendingRecoveryState : MachineState :=
  { applyTrueState with
    fastMode := false
    pInterval := true
    pInterval2 := true
    imgInit := true }

/-! ### Store-loop characterizations -/

/-- The `detailCulled` write loop: folding `setObjectDetailCulled` over a
list sets the flag for exactly the listed indices and appends the
corresponding write events. -/
lemma foldl_setObjectDetailCulled (l : List ℕ) (v : Bool) (s : MachineState) :
    l.foldl (fun t idx => setObjectDetailCulled t idx v) s =
      { s with
        detailCulled := fun j => if j ∈ l then v else s.detailCulled j
        writes := s.writes ++ l.map (fun i => WriteEvent.detail i v) } := by
  induction l generalizing s with
  | nil => ext <;> simp
  | cons a t ih =>
    rw [List.foldl_cons, ih]
    ext j <;> simp [setObjectDetailCulled, Function.update_apply]
    by_cases h1 : j ∈ t <;> by_cases h2 : j = a <;> simp [h1, h2]

/-- The `viewCulled` write loop: folding `setObjectViewCulled` over a
list sets the flag for exactly the listed indices and appends the
corresponding write events. -/
lemma foldl_setObjectViewCulled (l : List ℕ) (v : Bool) (s : MachineState) :
    l.foldl (fun t idx => setObjectViewCulled t idx v) s =
      { s with
        viewCulled := fun j => if j ∈ l then v else s.viewCulled j
        writes := s.writes ++ l.map (fun i => WriteEvent.view i v) } := by
  induction l generalizing s with
  | nil => ext <;> simp
  | cons a t ih =>
    rw [List.foldl_cons, ih]
    ext j <;> simp [setObjectViewCulled, Function.update_apply]
    by_cases h1 : j ∈ t <;> by_cases h2 : j = a <;> simp [h1, h2]

/-- `_buildCullObjects` as a record update: it touches only `viewCulled`,
the write log, the cull-set array with its tracked length, and the dirty
flag. -/
lemma buildCullObjectsOp_eq (s : MachineState) :
    buildCullObjectsOp s =
      { s with
        viewCulled := fun j =>
          if j ∈ s.cullSet.take s.cullSetLen then false else s.viewCulled j
        writes := s.writes ++
          (s.cullSet.take s.cullSetLen).map (fun i => WriteEvent.view i false)
        cullSet := buildCullList s.cullConfig s.entities ++
          s.cullSet.drop (buildCullList s.cullConfig s.entities).length
        cullSetLen := (buildCullList s.cullConfig s.entities).length
        cullSetDirty := false } := by
  unfold buildCullObjectsOp
  rw [foldl_setObjectViewCulled]
  rfl

/-- `_setObjectsCulled` as a record update of the (possibly rebuilt)
state. -/
lemma setObjectsCulledOp_eq (culled : Bool) (s : MachineState)
    (hclean : s.cullSetDirty = false) :
    setObjectsCulledOp culled s =
      { s with
        detailCulled := fun j => if j ∈ s.cullSet then culled else s.detailCulled j
        writes := s.writes ++ s.cullSet.map (fun i => WriteEvent.detail i culled)
        culling := culled } := by
  unfold setObjectsCulledOp
  rw [hclean]
  simp only [Bool.false_eq_true, if_false]
  rw [foldl_setObjectDetailCulled]
  ext <;> simp [hclean]

/-! ### The cull predicate -/

/-- The source's per-object decision agrees with the spec's
fixed-precedence reference predicate. -/
lemma entityNeedCull_eq_specCullPred (cfg : CullConfig) (e : Entity) :
    entityNeedCull cfg e = specCullPred cfg e := by
  have hge : ∀ a b : ℚ, decide (a ≥ b) = decide (b ≤ a) := fun a b => rfl
  cases hm : e.metaType with
  | none =>
    simp only [entityNeedCull, specCullPred, specTypeInSet, entityThresholdCull, hm, hge]
    by_cases hT : cfg.hideMoreTrianglesThan ≠ 0 <;>
      by_cases hS : cfg.hideSmallerThan ≠ 0 <;>
      simp [hT, hS]
  | some ty =>
    simp only [entityNeedCull, specCullPred, specTypeInSet, entityThresholdCull, hm, hge]
    by_cases hd : cfg.dontHideTypes.contains ty <;>
      by_cases hh : cfg.hideTypes.contains ty <;>
      by_cases hT : cfg.hideMoreTrianglesThan ≠ 0 <;>
      by_cases hS : cfg.hideSmallerThan ≠ 0 <;>
      simp [hd, hh, hT, hS]

/-- Membership in the index-collecting loop. -/
lemma mem_buildCullLoop (cfg : CullConfig) :
    ∀ (l : List Entity) (start i : ℕ),
      i ∈ buildCullLoop cfg l start ↔
        ∃ j e, l.get? j = some e ∧ entityNeedCull cfg e = true ∧ i = start + j := by
  intro l
  induction l with
  | nil => intro start i; simp [buildCullLoop]
  | cons e rest ih =>
    intro start i
    constructor
    · intro hmem
      by_cases hc : entityNeedCull cfg e
      · simp only [buildCullLoop, if_pos hc, List.mem_cons] at hmem
        rcases hmem with rfl | hmem
        · exact ⟨0, e, rfl, hc, by omega⟩
        · obtain ⟨j, e', hj, hcull, rfl⟩ := (ih (start + 1) i).1 hmem
          exact ⟨j + 1, e', hj, hcull, by omega⟩
      · simp only [buildCullLoop, if_neg hc] at hmem
        obtain ⟨j, e', hj, hcull, rfl⟩ := (ih (start + 1) i).1 hmem
        exact ⟨j + 1, e', hj, hcull, by omega⟩
    · rintro ⟨j, e', hj, hcull, rfl⟩
      cases j with
      | zero =>
        simp only [List.get?] at hj
        cases hj
        simp [buildCullLoop, hcull]
      | succ j =>
        simp only [List.get?] at hj
        have : start + (j + 1) ∈ buildCullLoop cfg rest (start + 1) := by
          rw [ih (start + 1) (start + (j + 1))]
          exact ⟨j, e', hj, hcull, by omega⟩
        by_cases hc : entityNeedCull cfg e <;> simp [buildCullLoop, hc, this]

/-- A configuration that decides no object produces an empty cull list. -/
lemma buildCullLoop_eq_nil (cfg : CullConfig)
    (hnone : ∀ e, entityNeedCull cfg e = false) :
    ∀ (l : List Entity) (start : ℕ), buildCullLoop cfg l start = [] := by
  intro l
  induction l with
  | nil => intro start; simp [buildCullLoop]
  | cons e rest ih => intro start; simp [buildCullLoop, hnone e, ih]

/-- With both thresholds zero and both type lists empty, no object is
culled. -/
lemma entityNeedCull_allZero (e : Entity) :
    entityNeedCull ⟨0, 0, [], []⟩ e = false := by
  cases hm : e.metaType <;>
    simp [entityNeedCull, entityThresholdCull, hm]

/-- `_setObjectsCulled` with the rebuild-if-dirty step left explicit. -/
lemma setObjectsCulledOp_eq_general (culled : Bool) (s : MachineState) :
    setObjectsCulledOp culled s =
      (let s1 := if s.cullSetDirty then buildCullObjectsOp s else s
       { s1 with
         detailCulled := fun j => if j ∈ s1.cullSet then culled else s1.detailCulled j
         writes := s1.writes ++ s1.cullSet.map (fun i => WriteEvent.detail i culled)
         culling := culled }) := by
  unfold setObjectsCulledOp
  simp only [foldl_setObjectDetailCulled]

/-- `_setObjectsCulled` leaves everything outside the cull machinery and
the store untouched. -/
lemma setObjectsCulledOp_preserves (culled : Bool) (s : MachineState) :
    (setObjectsCulledOp culled s).timer = s.timer ∧
    (setObjectsCulledOp culled s).fastMode = s.fastMode ∧
    (setObjectsCulledOp culled s).pbr = s.pbr ∧
    (setObjectsCulledOp culled s).saoEnabled = s.saoEnabled ∧
    (setObjectsCulledOp culled s).edges = s.edges ∧
    (setObjectsCulledOp culled s).pInterval = s.pInterval ∧
    (setObjectsCulledOp culled s).pInterval2 = s.pInterval2 ∧
    (setObjectsCulledOp culled s).imgInit = s.imgInit ∧
    (setObjectsCulledOp culled s).hidePBR = s.hidePBR ∧
    (setObjectsCulledOp culled s).hideSAO = s.hideSAO ∧
    (setObjectsCulledOp culled s).hideEdges = s.hideEdges := by
  rw [setObjectsCulledOp_eq_general]
  by_cases h : s.cullSetDirty <;> simp [h, buildCullObjectsOp_eq]

/-- Every index of the (possibly rebuilt) backing array ends up with
`detailCulled = culled` after `_setObjectsCulled(culled)`. -/
lemma setObjectsCulledOp_culls_members (culled : Bool) (s : MachineState) :
    ∀ j ∈ (setObjectsCulledOp culled s).cullSet,
      (setObjectsCulledOp culled s).detailCulled j = culled := by
  rw [setObjectsCulledOp_eq_general]
  by_cases h : s.cullSetDirty <;> simp only [h] <;> intro j hj <;> simp_all

/-! ### Claim theorems: the detail-cull predicate and configuration -/

/-- C3: for every state, membership in the cull set produced by
`_buildCullObjects` (the tracked prefix of the backing array) coincides
with the spec's fixed-precedence reference predicate evaluated on the
object at that index: never-hide wins (even over always-hide), then
always-hide, then the enabled (non-zero) thresholds, an untyped object
matching neither type set. -/
theorem cull_set_matches_spec_predicate (s : MachineState) (i : ℕ) :
    i ∈ (buildCullObjectsOp s).cullSet.take (buildCullObjectsOp s).cullSetLen ↔
      ∃ e, s.entities.get? i = some e ∧ specCullPred s.cullConfig e = true := by
  have hset : (buildCullObjectsOp s).cullSet =
      buildCullList s.cullConfig s.entities ++
        s.cullSet.drop (buildCullList s.cullConfig s.entities).length := by
    rw [buildCullObjectsOp_eq]
  have hlen : (buildCullObjectsOp s).cullSetLen =
      (buildCullList s.cullConfig s.entities).length := by
    rw [buildCullObjectsOp_eq]
  rw [hset, hlen, List.take_left, buildCullList, mem_buildCullLoop]
  constructor
  · rintro ⟨j, e, hj, hcull, rfl⟩
    refine ⟨e, by simpa using hj, ?_⟩
    rw [← entityNeedCull_eq_specCullPred]
    exact hcull
  · rintro ⟨e, hi, hspec⟩
    refine ⟨i, e, hi, ?_, by omega⟩
    rw [entityNeedCull_eq_specCullPred]
    exact hspec

/-- C10: a configuration omitting (undefined/null) both thresholds ends
with both thresholds 0block — the constructor routes them through the
setters, overwriting the initial 409/14 — and a fully default-configured
plugin culls no object at all. -/
theorem default_config_thresholds_disabled :
    (∀ (cfgHideTypes cfgDontHideTypes : Option (List String)) (entities : List Entity),
        (constructPlugin none none cfgHideTypes cfgDontHideTypes entities).hideSmallerThan = 0 ∧
        (constructPlugin none none cfgHideTypes cfgDontHideTypes entities).hideMoreTrianglesThan = 0) ∧
    (∀ entities : List Entity,
        buildCullList (constructPlugin none none none none entities).cullConfig entities = []) := by
  constructor
  · intro cfgHideTypes cfgDontHideTypes entities
    constructor <;>
      simp [constructPlugin, setDontHideTypesOp, setHideTypesOp,
        setHideMoreTrianglesThanOp, setHideSmallerThanOp]
  · intro entities
    have hcfg : (constructPlugin none none none none entities).cullConfig =
        ⟨0, 0, [], []⟩ := by
      simp [constructPlugin, setDontHideTypesOp, setHideTypesOp,
        setHideMoreTrianglesThanOp, setHideSmallerThanOp, MachineState.cullConfig]
    rw [hcfg]
    exact buildCullLoop_eq_nil _ entityNeedCull_allZero entities 0

/-- C4 counterexample: the setter stores a negative triangle threshold
unchanged (not 0), and the rebuild under that configuration culls a
zero-triangle object that the disabled (0) configuration does not cull —
so a negative threshold is not normalized to disabled. -/
theorem negative_threshold_not_normalized :
    (setHideMoreTrianglesThanOp (some (-1)) scenarioStart).hideMoreTrianglesThan = -1 ∧
    buildCullList ⟨0, -1, [], []⟩ [smallEntity] = [0] ∧
    buildCullList ⟨0, 0, [], []⟩ [smallEntity] = [] := by
  decide

/-- C4 (amended): the setters normalize only undefined/null to 0; any
other value — including a negative one — is stored unchanged and counts
as enabled (non-zero).  Consequently a negative triangle threshold culls
every object not protected by the type rules (every count exceeds it),
and a negative size threshold culls no such object (no nonnegative
diagonal is below it), even when the triangle threshold is enabled. -/
theorem negative_thresholds_count_as_enabled (v : ℚ) (s : MachineState)
    (cfgT cfgS : CullConfig) (e1 e2 : Entity)
    (hT : cfgT.hideMoreTrianglesThan < 0) (hTS : cfgT.hideSmallerThan = 0)
    (hd1 : specTypeInSet e1.metaType cfgT.dontHideTypes = false)
    (hh1 : specTypeInSet e1.metaType cfgT.hideTypes = false)
    (hS : cfgS.hideSmallerThan < 0) (hdiag : 0 ≤ e2.diagSize)
    (hd2 : specTypeInSet e2.metaType cfgS.dontHideTypes = false)
    (hh2 : specTypeInSet e2.metaType cfgS.hideTypes = false) :
    (setHideSmallerThanOp (some v) s).hideSmallerThan = v ∧
    (setHideMoreTrianglesThanOp (some v) s).hideMoreTrianglesThan = v ∧
    entityNeedCull cfgT e1 = true ∧
    entityNeedCull cfgS e2 = false := by
  refine ⟨rfl, rfl, ?_, ?_⟩
  · have hT0 : cfgT.hideMoreTrianglesThan ≠ 0 := ne_of_lt hT
    have htri : cfgT.hideMoreTrianglesThan ≤ (e1.numTriangles : ℚ) :=
      le_trans (le_of_lt hT) (Nat.cast_nonneg _)
    cases hm : e1.metaType with
    | none => simp [entityNeedCull, entityThresholdCull, hm, hT0, hTS, htri]
    | some ty =>
      simp only [specTypeInSet, hm] at hd1 hh1
      have hd1m : ty ∉ cfgT.dontHideTypes := by simpa using hd1
      have hh1m : ty ∉ cfgT.hideTypes := by simpa using hh1
      simp [entityNeedCull, entityThresholdCull, hm, hd1m, hh1m, hT0, hTS, htri]
  · have hS0 : cfgS.hideSmallerThan ≠ 0 := ne_of_lt hS
    have hsize : ¬ (e2.diagSize ≤ cfgS.hideSmallerThan) :=
      not_le.mpr (lt_of_lt_of_le hS hdiag)
    cases hm : e2.metaType with
    | none =>
      by_cases hT2 : cfgS.hideMoreTrianglesThan ≠ 0 <;>
        simp [entityNeedCull, entityThresholdCull, hm, hT2, hS0, hsize]
    | some ty =>
      simp only [specTypeInSet, hm] at hd2 hh2
      have hd2m : ty ∉ cfgS.dontHideTypes := by simpa using hd2
      have hh2m : ty ∉ cfgS.hideTypes := by simpa using hh2
      by_cases hT2 : cfgS.hideMoreTrianglesThan ≠ 0 <;>
        simp [entityNeedCull, entityThresholdCull, hm, hd2m, hh2m, hT2, hS0, hsize]

/-- C4 witness: the amended statement at a concrete input — threshold -1
stored unchanged; a negative triangle threshold culls a 100-triangle-free
object; a negative size threshold keeps a 100-triangle object visible. -/
theorem negative_thresholds_count_as_enabled_witness :
    (setHideSmallerThanOp (some (-1)) scenarioStart).hideSmallerThan = -1 ∧
    (setHideMoreTrianglesThanOp (some (-1)) scenarioStart).hideMoreTrianglesThan = -1 ∧
    entityNeedCull ⟨0, -1, [], []⟩ smallEntity = true ∧
    entityNeedCull ⟨-1, 7, [], []⟩ ⟨100, 5, none, ⟨0, 0, 0, 1, 1, 1⟩⟩ = false :=
  negative_thresholds_count_as_enabled (-1) scenarioStart
    ⟨0, -1, [], []⟩ ⟨-1, 7, [], []⟩ smallEntity ⟨100, 5, none, ⟨0, 0, 0, 1, 1, 1⟩⟩
    (by decide) (by decide) (by decide) (by decide)
    (by decide) (by decide) (by decide) (by decide)

/-! ### Claim theorems: apply/restore round-trip and teardown -/

/-- C1: evaluation at the failing input.  With `hideTypes = ["A"]`,
`_setObjectsCulled(true)` detail-culls object 0; after `hideTypes`
changes to `["B"]` (marking the set dirty), `_setObjectsCulled(false)`
rebuilds the cull set from the *current* configuration and restores only
the re-derived set `{1}` — object 0 is left with `detailCulled = true`,
so the claimed round-trip fails on the code. -/
theorem applyFalse_rederives_and_misses_object :
    applyTrueState.detailCulled 0 = true ∧
    applyFalseState.detailCulled 0 = true ∧
    applyFalseState.detailCulled 1 = false := by
  decide

/-- C6: evaluation at the failing input.  After the sequence of C1,
`destroy()` resets `detailCulled` only for the tracked prefix of the
current backing array (`{1}`), leaving object 0 — which the plugin itself
detail-culled — permanently culled after teardown. -/
theorem destroy_leaves_object_detail_culled :
    applyTrueState.detailCulled 0 = true ∧
    destroyedState.detailCulled 0 = true := by
  decide

/-! ### Claim theorems: rebuild side effects -/

/-- C2 counterexample: a single `_buildCullObjects` call on a state whose
previous cull set tracks object 0 performs the store write
`setObjectViewCulled(0, false)` — the rebuild is not write-free and the
plugin does write `viewCulled`. -/
theorem buildCullObjects_performs_viewCulled_write :
    (buildCullObjectsOp rebuildProbeState).writes = [WriteEvent.view 0 false] := by
  decide

/-- C2 (amended): `_buildCullObjects` never writes `detailCulled`, but it
does write `viewCulled := false` for exactly the tracked prefix of the
previous cull set (and nothing else); with an empty tracked set it
performs no store writes at all, and the `detailCulled` flags are left
untouched by the rebuild. -/
theorem buildCullObjects_write_trace (s : MachineState) :
    (buildCullObjectsOp s).writes =
      s.writes ++ (s.cullSet.take s.cullSetLen).map (fun i => WriteEvent.view i false) ∧
    (buildCullObjectsOp s).detailCulled = s.detailCulled := by
  rw [buildCullObjectsOp_eq]
  exact ⟨rfl, rfl⟩

/-! ### Claim theorems: capture failure during recovery -/

/-- A tick in fast mode with an expiring countdown and a throwing frame
capture only decrements the countdown, creates the overlay image and
clears the fade interval: the exception aborts the handler before the
delayed re-enable is scheduled or fast mode is left. -/
lemma tickExpiry_captureFail_eq (s : MachineState) (dt : ℚ)
    (hfast : s.fastMode = true) (hexp : s.timer - dt ≤ 0) :
    step (.tick dt false) s =
      { s with timer := s.timer - dt, imgInit := true, pInterval := false } := by
  simp only [step, tickOp, hfast, Bool.true_eq_false, if_false]
  have hc : ({ s with timer := s.timer - dt } : MachineState).timer ≤ 0 := hexp
  rw [if_pos hc]
  simp only [startFadeOp, Bool.false_eq_true, if_false]

/-- C5 counterexample: with effects suppressed, object 0 detail-culled
and the countdown about to expire, a tick whose frame capture throws
leaves the effects disabled, the object culled, no recovery scheduled and
the machine still in fast mode — the recovery does not complete, refuting
the claimed fail-soft behaviour. -/
theorem capture_failure_keeps_state_suppressed :
    (step (.tick 5 false) fastSuppressedState).pbr = false ∧
    (step (.tick 5 false) fastSuppressedState).saoEnabled = false ∧
    (step (.tick 5 false) fastSuppressedState).edges = false ∧
    (step (.tick 5 false) fastSuppressedState).detailCulled 0 = true ∧
    (step (.tick 5 false) fastSuppressedState).fastMode = true ∧
    (step (.tick 5 false) fastSuppressedState).pInterval2 = false := by
  rw [tickExpiry_captureFail_eq fastSuppressedState 5 (by decide)
    (sub_nonpos.mpr (by decide))]
  refine ⟨by decide, by decide, by decide, by decide, by decide, by decide⟩

/-- C5 (amended): if the frame capture throws at the moment the idle
countdown expires, the tick handler aborts: the only state changes are
the countdown decrement, the overlay-image creation and the clearing of
the fade interval — the delayed re-enable is never scheduled, the
suppressed effects and the detail-cull flags are left as they were, and
the machine stays in fast mode (so the expiry path re-runs on later
ticks).  Recovery completes only when the capture succeeds. -/
theorem capture_failure_aborts_tick_recovery (s : MachineState) (dt : ℚ)
    (hfast : s.fastMode = true) (hexp : s.timer - dt ≤ 0) :
    step (.tick dt false) s =
      { s with timer := s.timer - dt, imgInit := true, pInterval := false } :=
  tickExpiry_captureFail_eq s dt hfast hexp

/-- C5 witness: the amended statement at the concrete expiring state. -/
theorem capture_failure_aborts_tick_recovery_witness :
    fastSuppressedState.fastMode = true ∧
    fastSuppressedState.timer - 5 ≤ 0 ∧
    step (.tick 5 false) fastSuppressedState =
      { fastSuppressedState with
        timer := fastSuppressedState.timer - 5
        imgInit := true
        pInterval := false } :=
  ⟨by decide, sub_nonpos.mpr (by decide),
    capture_failure_aborts_tick_recovery fastSuppressedState 5 (by decide)
      (sub_nonpos.mpr (by decide))⟩

/-! ### Claim theorems: interruption of a pending recovery -/

/-- C9: while a delayed recovery is pending (countdown expired, fade
started, `_pInterval2` scheduled, fast mode left), any Quality-to-Fast
trigger — camera view/projection matrix change, canvas boundary change,
or mouse-move with a button down — cancels the pending delayed re-enable
and the active fade, re-suppresses the configured effects, re-applies
detail culling, and re-enters fast mode with a full countdown; firing the
(cancelled) recovery afterwards is a no-op. -/
theorem interruption_cancels_pending_recovery (s : MachineState) (ev : PluginEvent)
    (_hpend : s.pInterval2 = true) (hfast : s.fastMode = false) (himg : s.imgInit = true)
    (htrig : ev = .viewMatrix ∨ ev = .projMatrix ∨ ev = .boundary ∨
      (ev = .mouseMove ∧ s.down = true)) :
    (step ev s).fastMode = true ∧
    (step ev s).timer = timeoutDuration ∧
    (step ev s).pInterval = false ∧
    (step ev s).pInterval2 = false ∧
    (s.hidePBR = true → (step ev s).pbr = false) ∧
    (s.hideSAO = true → (step ev s).saoEnabled = false) ∧
    (s.hideEdges = true → (step ev s).edges = false) ∧
    (∀ j ∈ (step ev s).cullSet, (step ev s).detailCulled j = true) ∧
    step .recoveryFire (step ev s) = step ev s := by
  have hstep : step ev s = startHidingOp s := by
    rcases htrig with rfl | rfl | rfl | ⟨rfl, hdown⟩
    · rfl
    · rfl
    · rfl
    · simp [step, hdown]
  set R : MachineState :=
    { s with
      timer := timeoutDuration
      pInterval := false
      pInterval2 := false
      pbr := if s.hidePBR then false else s.pbr
      saoEnabled := if s.hideSAO then false else s.saoEnabled
      edges := if s.hideEdges then false else s.edges } with hR
  have hsh : startHidingOp s =
      { (setObjectsCulledOp true R) with fastMode := true, frustumDirty := true } := by
    unfold startHidingOp
    have h0 : (({ s with timer := timeoutDuration } : MachineState).fastMode = false) =
        True := by simp [hfast]
    have h1 : ((({ s with timer := timeoutDuration } : MachineState).imgInit = false)) =
        False := by simp [himg]
    simp only [cancelFadeOp, h0, h1, if_true, if_false]
  rw [hstep, hsh]
  obtain ⟨ht, hfm, hpbr, hsao, hedg, hpi, hpi2, him, hhp, hhs, hhe⟩ :=
    setObjectsCulledOp_preserves true R
  refine ⟨rfl, ?_, ?_, ?_, ?_, ?_, ?_, ?_, ?_⟩
  · show (setObjectsCulledOp true R).timer = timeoutDuration
    rw [ht, hR]
  · show (setObjectsCulledOp true R).pInterval = false
    rw [hpi, hR]
  · show (setObjectsCulledOp true R).pInterval2 = false
    rw [hpi2, hR]
  · intro h
    show (setObjectsCulledOp true R).pbr = false
    rw [hpbr, hR]
    simp [h]
  · intro h
    show (setObjectsCulledOp true R).saoEnabled = false
    rw [hsao, hR]
    simp [h]
  · intro h
    show (setObjectsCulledOp true R).edges = false
    rw [hedg, hR]
    simp [h]
  · show ∀ j ∈ (setObjectsCulledOp true R).cullSet,
      (setObjectsCulledOp true R).detailCulled j = true
    exact setObjectsCulledOp_culls_members true R
  · show recoveryFireOp _ = _
    rw [recoveryFireOp, if_neg]
    simp only [Bool.not_eq_true]
    show (setObjectsCulledOp true R).pInterval2 = false
    rw [hpi2, hR]

/-- C9 witness: the theorem at the concrete pending-recovery state, with
a view-matrix change as the trigger. -/
theorem interruption_cancels_pending_recovery_witness :
    pendingRecoveryState.pInterval2 = true ∧
    pendingRecoveryState.fastMode = false ∧
    pendingRecoveryState.imgInit = true ∧
    ((step .viewMatrix pendingRecoveryState).fastMode = true ∧
      (step .viewMatrix pendingRecoveryState).timer = timeoutDuration ∧
      (step .viewMatrix pendingRecoveryState).pInterval = false ∧
      (step .viewMatrix pendingRecoveryState).pInterval2 = false ∧
      (pendingRecoveryState.hidePBR = true →
        (step .viewMatrix pendingRecoveryState).pbr = false) ∧
      (pendingRecoveryState.hideSAO = true →
        (step .viewMatrix pendingRecoveryState).saoEnabled = false) ∧
      (pendingRecoveryState.hideEdges = true →
        (step .viewMatrix pendingRecoveryState).edges = false) ∧
      (∀ j ∈ (step .viewMatrix pendingRecoveryState).cullSet,
        (step .viewMatrix pendingRecoveryState).detailCulled j = true) ∧
      step .recoveryFire (step .viewMatrix pendingRecoveryState) =
        step .viewMatrix pendingRecoveryState) :=
  ⟨by decide, by decide, by decide,
    interruption_cancels_pending_recovery pendingRecoveryState .viewMatrix
      (by decide) (by decide) (by decide) (Or.inl rfl)⟩

/-! ### AABB order lemmas -/

/-- Unfolding of box containment. -/
lemma containsAABB3_iff (a b : AABB) :
    containsAABB3 a b = true ↔
      (a.xmin ≤ b.xmin ∧ a.ymin ≤ b.ymin ∧ a.zmin ≤ b.zmin ∧
        b.xmax ≤ a.xmax ∧ b.ymax ≤ a.ymax ∧ b.zmax ≤ a.zmax) := by
  simp [containsAABB3, and_assoc]

/-- Unfolding of box well-formedness. -/
lemma validAABB_iff (a : AABB) :
    validAABB a = true ↔ (a.xmin ≤ a.xmax ∧ a.ymin ≤ a.ymax ∧ a.zmin ≤ a.zmax) := by
  simp [validAABB, and_assoc]

/-- Containment is reflexive. -/
lemma containsAABB3_refl (a : AABB) : containsAABB3 a a = true := by
  simp [containsAABB3_iff]

/-- Containment is transitive. -/
lemma containsAABB3_trans {a b c : AABB} (hab : containsAABB3 a b = true)
    (hbc : containsAABB3 b c = true) : containsAABB3 a c = true := by
  rw [containsAABB3_iff] at *
  obtain ⟨h1, h2, h3, h4, h5, h6⟩ := hab
  obtain ⟨g1, g2, g3, g4, g5, g6⟩ := hbc
  exact ⟨le_trans h1 g1, le_trans h2 g2, le_trans h3 g3,
    le_trans g4 h4, le_trans g5 h5, le_trans g6 h6⟩

/-- The union contains its first argument. -/
lemma containsAABB3_expand_left (a b : AABB) :
    containsAABB3 (expandAABB3 a b) a = true := by
  simp [containsAABB3_iff, expandAABB3]

/-- The union contains its second argument. -/
lemma containsAABB3_expand_right (a b : AABB) :
    containsAABB3 (expandAABB3 a b) b = true := by
  simp [containsAABB3_iff, expandAABB3]

/-- Expanding with an already-contained box is a no-op. -/
lemma expandAABB3_eq_of_contains {a b : AABB} (h : containsAABB3 a b = true) :
    expandAABB3 a b = a := by
  rw [containsAABB3_iff] at h
  obtain ⟨h1, h2, h3, h4, h5, h6⟩ := h
  simp [expandAABB3, min_eq_left, max_eq_left, h1, h2, h3, h4, h5, h6]

/-- The union of a well-formed box with anything stays well-formed. -/
lemma validAABB_expand {a : AABB} (b : AABB) (h : validAABB a = true) :
    validAABB (expandAABB3 a b) = true := by
  rw [validAABB_iff] at *
  obtain ⟨h1, h2, h3⟩ := h
  refine ⟨?_, ?_, ?_⟩ <;> simp [expandAABB3, min_le_iff, le_max_iff]
  · exact Or.inl (Or.inl h1)
  · exact Or.inl (Or.inl h2)
  · exact Or.inl (Or.inl h3)

/-- A well-formed box contains its left-half slice. -/
lemma containsAABB3_halveMax {a : AABB} (h : validAABB a = true) (dim : ℕ) :
    containsAABB3 a (halveAABBMax a dim) = true := by
  rw [validAABB_iff] at h
  obtain ⟨h1, h2, h3⟩ := h
  unfold halveAABBMax
  split_ifs <;> rw [containsAABB3_iff] <;>
    refine ⟨le_refl _, le_refl _, le_refl _, ?_, ?_, ?_⟩ <;>
    simp <;> linarith

/-- A well-formed box contains its right-half slice. -/
lemma containsAABB3_halveMin {a : AABB} (h : validAABB a = true) (dim : ℕ) :
    containsAABB3 a (halveAABBMin a dim) = true := by
  rw [validAABB_iff] at h
  obtain ⟨h1, h2, h3⟩ := h
  unfold halveAABBMin
  split_ifs <;> rw [containsAABB3_iff] <;>
    refine ⟨?_, ?_, ?_, le_refl _, le_refl _, le_refl _⟩ <;>
    simp <;> linarith

/-- The left-half slice of a well-formed box is well-formed. -/
lemma validAABB_halveMax {a : AABB} (h : validAABB a = true) (dim : ℕ) :
    validAABB (halveAABBMax a dim) = true := by
  rw [validAABB_iff] at h
  obtain ⟨h1, h2, h3⟩ := h
  unfold halveAABBMax
  split_ifs <;> rw [validAABB_iff] <;>
    refine ⟨?_, ?_, ?_⟩ <;> simp <;> linarith

/-- The right-half slice of a well-formed box is well-formed. -/
lemma validAABB_halveMin {a : AABB} (h : validAABB a = true) (dim : ℕ) :
    validAABB (halveAABBMin a dim) = true := by
  rw [validAABB_iff] at h
  obtain ⟨h1, h2, h3⟩ := h
  unfold halveAABBMin
  split_ifs <;> rw [validAABB_iff] <;>
    refine ⟨?_, ?_, ?_⟩ <;> simp <;> linarith

/-! ### Depth bound of KD insertion -/

set_option maxHeartbeats 3200000 in
/-- Every depth argument that occurs during an insertion started within
the depth bound stays within the bound (fuel induction on the remaining
depth budget). -/
lemma kd_insert_visited_bound :
    ∀ (k : ℕ) (n : KDNode) (e : Entity) (idx depth : ℕ),
      MAX_KD_TREE_DEPTH - depth ≤ k → depth ≤ MAX_KD_TREE_DEPTH →
      ∀ d ∈ (insertEntityIntoKDTree n e idx depth).2, d ≤ MAX_KD_TREE_DEPTH := by
  intro k
  induction k with
  | zero =>
    intro n e idx depth hk hd
    obtain ⟨a, l, r, o⟩ := n
    have h8 : MAX_KD_TREE_DEPTH ≤ depth := by omega
    rw [insertEntityIntoKDTree.eq_def]
    simp only [dif_pos h8, List.mem_singleton]
    intro d hdm
    omega
  | succ k ih =>
    intro n e idx depth hk hd
    obtain ⟨a, l, r, o⟩ := n
    by_cases h8 : MAX_KD_TREE_DEPTH ≤ depth
    · rw [insertEntityIntoKDTree.eq_def]
      simp only [dif_pos h8, List.mem_singleton]
      intro d hdm
      omega
    · have hstep : ∀ (m : KDNode) (d : ℕ),
          d ∈ (insertEntityIntoKDTree m e idx (depth + 1)).2 → d ≤ MAX_KD_TREE_DEPTH :=
        fun m d hm => ih m e idx (depth + 1) (by omega) (by omega) d hm
      rw [insertEntityIntoKDTree.eq_def]
      simp only [dif_neg h8]
      split <;> split_ifs <;> intro d hdm <;>
        simp only [List.mem_cons, List.mem_singleton] at hdm <;>
        (first
          | omega
          | (rcases hdm with rfl | hmem
             · omega
             · first
               | exact hstep _ d hmem
               | simp at hmem))

/-- C7: the insertion recursion of `_insertEntityIntoKDTree` is bounded
by the configured maximum depth 8 — a call at depth ≥ 8 appends the
object to the node's overflow list and expands its bound without
recursing, and an insertion started at any depth within the bound (in
particular depth 1, as `_buildKDTree` does) only ever visits depths
≤ 8. -/
theorem kd_insert_depth_bound (n : KDNode) (e : Entity) (idx depth : ℕ) :
    (MAX_KD_TREE_DEPTH ≤ depth →
      insertEntityIntoKDTree n e idx depth =
        (KDNode.node (expandAABB3 n.aabb e.aabb) n.left n.right (n.objects ++ [idx]),
          [depth])) ∧
    (depth ≤ MAX_KD_TREE_DEPTH →
      ∀ d ∈ (insertEntityIntoKDTree n e idx depth).2, d ≤ MAX_KD_TREE_DEPTH) := by
  constructor
  · intro hd
    cases n with
    | node a l r o =>
      rw [insertEntityIntoKDTree.eq_def]
      simp [KDNode.aabb, KDNode.left, KDNode.right, KDNode.objects, dif_pos hd]
  · intro hd
    exact kd_insert_visited_bound (MAX_KD_TREE_DEPTH - depth) n e idx depth le_rfl hd

/-- C7 witness: the theorem at a concrete node — at depth 8 the object
lands in the overflow list with no recursion, and an insertion from
depth 1 visits only depths ≤ 8. -/
theorem kd_insert_depth_bound_witness :
    (insertEntityIntoKDTree (KDNode.node ⟨0, 0, 0, 4, 4, 4⟩ none none []) smallEntity 0 8 =
      (KDNode.node (expandAABB3 ⟨0, 0, 0, 4, 4, 4⟩ smallEntity.aabb) none none [0], [8])) ∧
    (∀ d ∈ (insertEntityIntoKDTree (KDNode.node ⟨0, 0, 0, 4, 4, 4⟩ none none [])
        smallEntity 0 1).2, d ≤ MAX_KD_TREE_DEPTH) :=
  ⟨(kd_insert_depth_bound (KDNode.node ⟨0, 0, 0, 4, 4, 4⟩ none none []) smallEntity 0 8).1
      (by decide),
    (kd_insert_depth_bound (KDNode.node ⟨0, 0, 0, 4, 4, 4⟩ none none []) smallEntity 0 1).2
      (by decide)⟩

/-! ### KD-node invariant machinery -/

/-- Introduction form of `goodNode`. -/
lemma goodNode_node_intro {env : ℕ → AABB} {a : AABB} {l r : Option KDNode}
    {o : List ℕ}
    (h1 : validAABB a = true)
    (h2 : ∀ i ∈ o, containsAABB3 a (env i) = true)
    (h3 : ∀ c, l = some c → containsAABB3 a c.aabb = true ∧ goodNode env c)
    (h4 : ∀ c, r = some c → containsAABB3 a c.aabb = true ∧ goodNode env c) :
    goodNode env (KDNode.node a l r o) := by
  rw [goodNode.eq_def]
  refine ⟨h1, h2, ?_, ?_⟩
  · cases l with
    | none => trivial
    | some c => exact h3 c rfl
  · cases r with
    | none => trivial
    | some c => exact h4 c rfl

/-- Elimination form of `goodNode`. -/
lemma goodNode_node_elim {env : ℕ → AABB} {a : AABB} {l r : Option KDNode}
    {o : List ℕ} (hg : goodNode env (KDNode.node a l r o)) :
    validAABB a = true ∧
    (∀ i ∈ o, containsAABB3 a (env i) = true) ∧
    (∀ c, l = some c → containsAABB3 a c.aabb = true ∧ goodNode env c) ∧
    (∀ c, r = some c → containsAABB3 a c.aabb = true ∧ goodNode env c) := by
  rw [goodNode.eq_def] at hg
  obtain ⟨h1, h2, h3, h4⟩ := hg
  refine ⟨h1, h2, ?_, ?_⟩
  · intro c hc
    cases l with
    | none => simp at hc
    | some c' => cases hc; exact h3
  · intro c hc
    cases r with
    | none => simp at hc
    | some c' => cases hc; exact h4

/-- A freshly created child node (empty overflow list, no children) with
a well-formed bound satisfies the invariant. -/
lemma goodNode_fresh (env : ℕ → AABB) (b : AABB) (hv : validAABB b = true) :
    goodNode env (KDNode.node b none none []) := by
  simp [goodNode, hv]

/-- `growsInto` is reflexive. -/
lemma growsInto_refl : ∀ n : KDNode, growsInto n n
  | .node a l r o => by
    rw [growsInto.eq_def]
    refine ⟨containsAABB3_refl a, ?_, ?_⟩
    · cases l with
      | none => trivial
      | some c => exact growsInto_refl c
    · cases r with
      | none => trivial
      | some c => exact growsInto_refl c

/-- `growsInto` is transitive. -/
lemma growsInto_trans : ∀ (n1 n2 n3 : KDNode),
    growsInto n1 n2 → growsInto n2 n3 → growsInto n1 n3
  | .node a1 l1 r1 o1, .node a2 l2 r2 o2, .node a3 l3 r3 o3 => by
    intro h12 h23
    rw [growsInto.eq_def] at h12
    rw [growsInto.eq_def] at h23
    rw [growsInto.eq_def]
    refine ⟨containsAABB3_trans h23.1 h12.1, ?_, ?_⟩
    · cases l1 with
      | none => trivial
      | some c1 =>
        cases l2 with
        | none => exact absurd h12.2.1 (by simp)
        | some c2 =>
          cases l3 with
          | none => exact absurd h23.2.1 (by simp)
          | some c3 => exact growsInto_trans c1 c2 c3 h12.2.1 h23.2.1
    · cases r1 with
      | none => trivial
      | some c1 =>
        cases r2 with
        | none => exact absurd h12.2.2 (by simp)
        | some c2 =>
          cases r3 with
          | none => exact absurd h23.2.2 (by simp)
          | some c3 => exact growsInto_trans c1 c2 c3 h12.2.2 h23.2.2

/-- Introduction form of `growsInto`. -/
lemma growsInto_node_intro {a1 a2 : AABB} {l1 l2 r1 r2 : Option KDNode}
    {o1 o2 : List ℕ}
    (ha : containsAABB3 a2 a1 = true)
    (hl : ∀ c1, l1 = some c1 → ∃ c2, l2 = some c2 ∧ growsInto c1 c2)
    (hr : ∀ c1, r1 = some c1 → ∃ c2, r2 = some c2 ∧ growsInto c1 c2) :
    growsInto (KDNode.node a1 l1 r1 o1) (KDNode.node a2 l2 r2 o2) := by
  rw [growsInto.eq_def]
  refine ⟨ha, ?_, ?_⟩
  · cases l1 with
    | none => trivial
    | some c1 =>
      obtain ⟨c2, hc2, hg⟩ := hl c1 rfl
      subst hc2
      exact hg
  · cases r1 with
    | none => trivial
    | some c1 =>
      obtain ⟨c2, hc2, hg⟩ := hr c1 rfl
      subst hc2
      exact hg

/-- The invariant pushes containment down to every registered object of
the subtree. -/
lemma goodNode_subtree (env : ℕ → AABB) :
    ∀ n : KDNode, goodNode env n →
      ∀ j ∈ subtreeObjects n, containsAABB3 n.aabb (env j) = true
  | .node a l r o => by
    intro hg j hj
    obtain ⟨hva, hobj, hl, hr⟩ := goodNode_node_elim hg
    rw [subtreeObjects.eq_def] at hj
    simp only [List.mem_append] at hj
    rcases hj with (hj | hj) | hj
    · exact hobj j hj
    · cases l with
      | none => simp at hj
      | some c =>
        obtain ⟨hca, hgc⟩ := hl c rfl
        exact containsAABB3_trans hca (goodNode_subtree env c hgc j hj)
    · cases r with
      | none => simp at hj
      | some c =>
        obtain ⟨hca, hgc⟩ := hr c rfl
        exact containsAABB3_trans hca (goodNode_subtree env c hgc j hj)

/-- An insertion into a node whose bound already contains the object's
box leaves the node's bound unchanged (every branch either keeps the
bound or expands it by a contained box). -/
lemma insertKD_aabb_of_contains (n : KDNode) (e : Entity) (idx depth : ℕ)
    (h : containsAABB3 n.aabb e.aabb = true) :
    ((insertEntityIntoKDTree n e idx depth).1).aabb = n.aabb := by
  obtain ⟨a, l, r, o⟩ := n
  have ha : containsAABB3 a e.aabb = true := h
  rw [insertEntityIntoKDTree.eq_def]
  by_cases h8 : MAX_KD_TREE_DEPTH ≤ depth
  · simp only [dif_pos h8, KDNode.aabb]
    exact expandAABB3_eq_of_contains ha
  · simp only [dif_neg h8]
    split <;> split_ifs <;> simp only [KDNode.aabb] <;>
      first
        | rfl
        | exact expandAABB3_eq_of_contains ha

/-- The object list appended at an overflow stays inside the expanded
bound. -/
lemma overflow_objects (env : ℕ → AABB) (a : AABB) (o : List ℕ) (e : Entity)
    (idx : ℕ) (hobj : ∀ i ∈ o, containsAABB3 a (env i) = true)
    (he : env idx = e.aabb) :
    ∀ i ∈ o ++ [idx], containsAABB3 (expandAABB3 a e.aabb) (env i) = true := by
  intro i hi
  rcases List.mem_append.mp hi with hi | hi
  · exact containsAABB3_trans (containsAABB3_expand_left a e.aabb) (hobj i hi)
  · simp only [List.mem_singleton] at hi
    subst hi
    rw [he]
    exact containsAABB3_expand_right a e.aabb

/-- One insertion preserves the hereditary KD invariant and only grows
the tree (fuel induction on the remaining depth budget). -/
lemma insertKD_preserves :
    ∀ (k : ℕ) (env : ℕ → AABB) (n : KDNode) (e : Entity) (idx depth : ℕ),
      MAX_KD_TREE_DEPTH - depth ≤ k →
      goodNode env n → env idx = e.aabb → validAABB e.aabb = true →
      goodNode env (insertEntityIntoKDTree n e idx depth).1 ∧
      growsInto n (insertEntityIntoKDTree n e idx depth).1 := by
  intro k
  induction k with
  | zero =>
    intro env n e idx depth hk hg he hv
    obtain ⟨a, l, r, o⟩ := n
    obtain ⟨hva, hobj, hcl, hcr⟩ := goodNode_node_elim hg
    have h8 : MAX_KD_TREE_DEPTH ≤ depth := by omega
    rw [insertEntityIntoKDTree.eq_def]
    simp only [dif_pos h8]
    constructor
    · exact goodNode_node_intro (validAABB_expand _ hva)
        (overflow_objects env a o e idx hobj he)
        (fun c hc => ⟨containsAABB3_trans (containsAABB3_expand_left a e.aabb)
          (hcl c hc).1, (hcl c hc).2⟩)
        (fun c hc => ⟨containsAABB3_trans (containsAABB3_expand_left a e.aabb)
          (hcr c hc).1, (hcr c hc).2⟩)
    · exact growsInto_node_intro (containsAABB3_expand_left a e.aabb)
        (fun c1 hc => ⟨c1, hc, growsInto_refl c1⟩)
        (fun c1 hc => ⟨c1, hc, growsInto_refl c1⟩)
  | succ k ih =>
    intro env n e idx depth hk hg he hv
    obtain ⟨a, l, r, o⟩ := n
    obtain ⟨hva, hobj, hcl, hcr⟩ := goodNode_node_elim hg
    by_cases h8 : MAX_KD_TREE_DEPTH ≤ depth
    · rw [insertEntityIntoKDTree.eq_def]
      simp only [dif_pos h8]
      constructor
      · exact goodNode_node_intro (validAABB_expand _ hva)
          (overflow_objects env a o e idx hobj he)
          (fun c hc => ⟨containsAABB3_trans (containsAABB3_expand_left a e.aabb)
            (hcl c hc).1, (hcl c hc).2⟩)
          (fun c hc => ⟨containsAABB3_trans (containsAABB3_expand_left a e.aabb)
            (hcr c hc).1, (hcr c hc).2⟩)
      · exact growsInto_node_intro (containsAABB3_expand_left a e.aabb)
          (fun c1 hc => ⟨c1, hc, growsInto_refl c1⟩)
          (fun c1 hc => ⟨c1, hc, growsInto_refl c1⟩)
    · have hstep : ∀ (m : KDNode), goodNode env m →
          goodNode env (insertEntityIntoKDTree m e idx (depth + 1)).1 ∧
            growsInto m (insertEntityIntoKDTree m e idx (depth + 1)).1 :=
        fun m hm => ih env m e idx (depth + 1) (by omega) hm he hv
      have hchildOld : ∀ (c : KDNode),
          containsAABB3 a c.aabb = true ∧ goodNode env c →
          containsAABB3 (expandAABB3 a e.aabb) c.aabb = true ∧ goodNode env c :=
        fun c hc =>
          ⟨containsAABB3_trans (containsAABB3_expand_left a e.aabb) hc.1, hc.2⟩
      have hoverGood : ∀ (l2 r2 : Option KDNode),
          (∀ c, l2 = some c →
            containsAABB3 (expandAABB3 a e.aabb) c.aabb = true ∧ goodNode env c) →
          (∀ c, r2 = some c →
            containsAABB3 (expandAABB3 a e.aabb) c.aabb = true ∧ goodNode env c) →
          goodNode env (KDNode.node (expandAABB3 a e.aabb) l2 r2 (o ++ [idx])) :=
        fun l2 r2 p q => goodNode_node_intro (validAABB_expand _ hva)
          (overflow_objects env a o e idx hobj he) p q
      have hfreshL : containsAABB3 a (halveAABBMax a (splitDim a)) = true :=
        containsAABB3_halveMax hva _
      have hfreshR : containsAABB3 a (halveAABBMin a (splitDim a)) = true :=
        containsAABB3_halveMin hva _
      have hgoodFL : goodNode env
          (KDNode.node (halveAABBMax a (splitDim a)) none none []) :=
        goodNode_fresh env _ (validAABB_halveMax hva _)
      have hgoodFR : goodNode env
          (KDNode.node (halveAABBMin a (splitDim a)) none none []) :=
        goodNode_fresh env _ (validAABB_halveMin hva _)
      rw [insertEntityIntoKDTree.eq_def]
      simp only [dif_neg h8]
      cases l with
      | some lc =>
        cases r with
        | some rc =>
          dsimp only
          split_ifs with h1 h2
          · obtain ⟨hgood, hgrow⟩ := hstep lc (hcl lc rfl).2
            constructor
            · refine goodNode_node_intro hva hobj ?_ ?_
              · intro c hc
                cases hc
                refine ⟨?_, hgood⟩
                rw [insertKD_aabb_of_contains lc e idx (depth + 1) h1]
                exact (hcl lc rfl).1
              · intro c hc
                cases hc
                exact hcr _ rfl
            · refine growsInto_node_intro (containsAABB3_refl a) ?_ ?_
              · intro c1 hc
                cases hc
                exact ⟨_, rfl, hgrow⟩
              · intro c1 hc
                cases hc
                exact ⟨_, rfl, growsInto_refl _⟩
          · obtain ⟨hgood, hgrow⟩ := hstep rc (hcr rc rfl).2
            constructor
            · refine goodNode_node_intro hva hobj ?_ ?_
              · intro c hc
                cases hc
                exact hcl _ rfl
              · intro c hc
                cases hc
                refine ⟨?_, hgood⟩
                rw [insertKD_aabb_of_contains rc e idx (depth + 1) h2]
                exact (hcr rc rfl).1
            · refine growsInto_node_intro (containsAABB3_refl a) ?_ ?_
              · intro c1 hc
                cases hc
                exact ⟨_, rfl, growsInto_refl _⟩
              · intro c1 hc
                cases hc
                exact ⟨_, rfl, hgrow⟩
          · constructor
            · exact hoverGood _ _ (fun c hc => hchildOld c (hcl c hc))
                (fun c hc => hchildOld c (hcr c hc))
            · exact growsInto_node_intro (containsAABB3_expand_left a e.aabb)
                (fun c1 hc => ⟨c1, hc, growsInto_refl c1⟩)
                (fun c1 hc => ⟨c1, hc, growsInto_refl c1⟩)
        | none =>
          dsimp only
          split_ifs with h1 h2
          · obtain ⟨hgood, hgrow⟩ := hstep lc (hcl lc rfl).2
            constructor
            · refine goodNode_node_intro hva hobj ?_ ?_
              · intro c hc
                cases hc
                refine ⟨?_, hgood⟩
                rw [insertKD_aabb_of_contains lc e idx (depth + 1) h1]
                exact (hcl lc rfl).1
              · intro c hc
                cases hc
            · refine growsInto_node_intro (containsAABB3_refl a) ?_ ?_
              · intro c1 hc
                cases hc
                exact ⟨_, rfl, hgrow⟩
              · intro c1 hc
                cases hc
          · obtain ⟨hgood, hgrow⟩ :=
              hstep (KDNode.node (halveAABBMin a (splitDim a)) none none []) hgoodFR
            constructor
            · refine goodNode_node_intro hva hobj ?_ ?_
              · intro c hc
                cases hc
                exact hcl _ rfl
              · intro c hc
                cases hc
                refine ⟨?_, hgood⟩
                rw [insertKD_aabb_of_contains
                  (KDNode.node (halveAABBMin a (splitDim a)) none none [])
                  e idx (depth + 1) h2]
                exact hfreshR
            · refine growsInto_node_intro (containsAABB3_refl a) ?_ ?_
              · intro c1 hc
                cases hc
                exact ⟨_, rfl, growsInto_refl _⟩
              · intro c1 hc
                cases hc
          · constructor
            · refine hoverGood _ _ (fun c hc => hchildOld c (hcl c hc)) ?_
              intro c hc
              cases hc
              exact hchildOld _ ⟨hfreshR, hgoodFR⟩
            · refine growsInto_node_intro (containsAABB3_expand_left a e.aabb) ?_ ?_
              · intro c1 hc
                exact ⟨c1, hc, growsInto_refl c1⟩
              · intro c1 hc
                cases hc
      | none =>
        cases r with
        | some rc =>
          dsimp only
          split_ifs with h1 h2
          · obtain ⟨hgood, hgrow⟩ := hstep rc (hcr rc rfl).2
            constructor
            · refine goodNode_node_intro hva hobj ?_ ?_
              · intro c hc
                cases hc
              · intro c hc
                cases hc
                refine ⟨?_, hgood⟩
                rw [insertKD_aabb_of_contains rc e idx (depth + 1) h1]
                exact (hcr rc rfl).1
            · refine growsInto_node_intro (containsAABB3_refl a) ?_ ?_
              · intro c1 hc
                cases hc
              · intro c1 hc
                cases hc
                exact ⟨_, rfl, hgrow⟩
          · obtain ⟨hgood, hgrow⟩ :=
              hstep (KDNode.node (halveAABBMax a (splitDim a)) none none []) hgoodFL
            constructor
            · refine goodNode_node_intro hva hobj ?_ ?_
              · intro c hc
                cases hc
                refine ⟨?_, hgood⟩
                rw [insertKD_aabb_of_contains
                  (KDNode.node (halveAABBMax a (splitDim a)) none none [])
                  e idx (depth + 1) h2]
                exact hfreshL
              · intro c hc
                cases hc
                exact hcr _ rfl
            · refine growsInto_node_intro (containsAABB3_refl a) ?_ ?_
              · intro c1 hc
                cases hc
              · intro c1 hc
                cases hc
                exact ⟨_, rfl, growsInto_refl _⟩
          · constructor
            · refine hoverGood _ _ ?_ (fun c hc => hchildOld c (hcr c hc))
              intro c hc
              cases hc
              exact hchildOld _ ⟨hfreshL, hgoodFL⟩
            · refine growsInto_node_intro (containsAABB3_expand_left a e.aabb) ?_ ?_
              · intro c1 hc
                cases hc
              · intro c1 hc
                exact ⟨c1, hc, growsInto_refl c1⟩
        | none =>
          dsimp only
          split_ifs with h1 h2
          · obtain ⟨hgood, hgrow⟩ :=
              hstep (KDNode.node (halveAABBMax a (splitDim a)) none none []) hgoodFL
            constructor
            · refine goodNode_node_intro hva hobj ?_ ?_
              · intro c hc
                cases hc
                refine ⟨?_, hgood⟩
                rw [insertKD_aabb_of_contains
                  (KDNode.node (halveAABBMax a (splitDim a)) none none [])
                  e idx (depth + 1) h1]
                exact hfreshL
              · intro c hc
                cases hc
            · refine growsInto_node_intro (containsAABB3_refl a) ?_ ?_
              · intro c1 hc
                cases hc
              · intro c1 hc
                cases hc
          · obtain ⟨hgood, hgrow⟩ :=
              hstep (KDNode.node (halveAABBMin a (splitDim a)) none none []) hgoodFR
            constructor
            · refine goodNode_node_intro hva hobj ?_ ?_
              · intro c hc
                cases hc
                exact ⟨hfreshL, hgoodFL⟩
              · intro c hc
                cases hc
                refine ⟨?_, hgood⟩
                rw [insertKD_aabb_of_contains
                  (KDNode.node (halveAABBMin a (splitDim a)) none none [])
                  e idx (depth + 1) h2]
                exact hfreshR
            · refine growsInto_node_intro (containsAABB3_refl a) ?_ ?_
              · intro c1 hc
                cases hc
              · intro c1 hc
                cases hc
          · constructor
            · refine hoverGood _ _ ?_ ?_
              · intro c hc
                cases hc
                exact hchildOld _ ⟨hfreshL, hgoodFL⟩
              · intro c hc
                cases hc
                exact hchildOld _ ⟨hfreshR, hgoodFR⟩
            · refine growsInto_node_intro (containsAABB3_expand_left a e.aabb) ?_ ?_
              · intro c1 hc
                cases hc
              · intro c1 hc
                cases hc

/-- The claim's per-node reading of the invariant: every node of the
tree bounds the boxes of all objects registered in its own subtree. -/
def nodesContainSubtrees (env : ℕ → AABB) : KDNode → Prop
  | .node a l r o =>
    (∀ j ∈ subtreeObjects (KDNode.node a l r o), containsAABB3 a (env j) = true) ∧
    (match l with
     | none => True
     | some c => nodesContainSubtrees env c) ∧
    (match r with
     | none => True
     | some c => nodesContainSubtrees env c)

/-- The hereditary invariant entails the per-node subtree containment. -/
lemma goodNode_nodesContain (env : ℕ → AABB) :
    ∀ n : KDNode, goodNode env n → nodesContainSubtrees env n
  | .node a l r o => by
    intro hg
    obtain ⟨hva, hobj, hl, hr⟩ := goodNode_node_elim hg
    rw [nodesContainSubtrees.eq_def]
    refine ⟨fun j hj => goodNode_subtree env _ hg j hj, ?_, ?_⟩
    · cases l with
      | none => trivial
      | some c => exact goodNode_nodesContain env c (hl c rfl).2
    · cases r with
      | none => trivial
      | some c => exact goodNode_nodesContain env c (hr c rfl).2

/-- A whole sequence of root insertions (as performed by `_buildKDTree`)
preserves the invariant and only grows the tree. -/
lemma insertAllKD_good (env : ℕ → AABB) :
    ∀ (items : List (ℕ × Entity)) (root : KDNode),
      goodNode env root →
      (∀ p ∈ items, env p.1 = p.2.aabb ∧ validAABB p.2.aabb = true) →
      goodNode env (insertAllKD root items) ∧
        growsInto root (insertAllKD root items) := by
  intro items
  induction items with
  | nil =>
    intro root hroot _
    exact ⟨hroot, growsInto_refl root⟩
  | cons p rest ih =>
    intro root hroot hitems
    obtain ⟨hp1, hp2⟩ := hitems p (List.mem_cons_self _ _)
    obtain ⟨hg1, hgrow1⟩ := insertKD_preserves (MAX_KD_TREE_DEPTH - 1) env root
      p.2 p.1 1 le_rfl hroot hp1 hp2
    obtain ⟨hA, hB⟩ := ih (insertKD root p.2 p.1 1) hg1
      (fun q hq => hitems q (List.mem_cons_of_mem _ hq))
    constructor
    · simpa [insertAllKD, List.foldl_cons] using hA
    · have h := growsInto_trans _ _ _ hgrow1 hB
      simpa [insertAllKD, List.foldl_cons] using h

/-- C8: after every sequence of insertions into the tree (each started
at the root with depth 1, as `_buildKDTree` does) from a root satisfying
the invariant, the hereditary invariant still holds, every node's AABB
contains the boxes of all objects registered in that node's subtree, and
the tree only ever grows — each original node survives with a bound
containing its old bound (bounds never shrink). -/
theorem kd_tree_containment_invariant (env : ℕ → AABB) (items : List (ℕ × Entity))
    (root : KDNode) (hroot : goodNode env root)
    (hitems : ∀ p ∈ items, env p.1 = p.2.aabb ∧ validAABB p.2.aabb = true) :
    goodNode env (insertAllKD root items) ∧
    nodesContainSubtrees env (insertAllKD root items) ∧
    growsInto root (insertAllKD root items) := by
  obtain ⟨hA, hB⟩ := insertAllKD_good env items root hroot hitems
  exact ⟨hA, goodNode_nodesContain env _ hA, hB⟩

/-- The environment of the C8 witness: every object index maps to the
unit box. -/
def witnessEnv : ℕ → AABB := fun _ => ⟨0, 0, 0, 1, 1, 1⟩

/-- The root of the C8 witness: the scene bound with no children and no
objects. -/
def witnessRoot : KDNode := KDNode.node ⟨0, 0, 0, 4, 4, 4⟩ none none []

/-- C8 witness: the theorem at a concrete root and a one-element
insertion sequence. -/
theorem kd_tree_containment_invariant_witness :
    goodNode witnessEnv witnessRoot ∧
    (∀ p ∈ [((0 : ℕ), smallEntity)],
      witnessEnv p.1 = p.2.aabb ∧ validAABB p.2.aabb = true) ∧
    (goodNode witnessEnv (insertAllKD witnessRoot [((0 : ℕ), smallEntity)]) ∧
      nodesContainSubtrees witnessEnv (insertAllKD witnessRoot [((0 : ℕ), smallEntity)]) ∧
      growsInto witnessRoot (insertAllKD witnessRoot [((0 : ℕ), smallEntity)])) :=
  have hroot : goodNode witnessEnv witnessRoot := by
    rw [witnessRoot, goodNode.eq_def]
    exact ⟨by decide, by simp, trivial, trivial⟩
  have hitems : ∀ p ∈ [((0 : ℕ), smallEntity)],
      witnessEnv p.1 = p.2.aabb ∧ validAABB p.2.aabb = true := by
    intro p hp
    simp only [List.mem_singleton] at hp
    subst hp
    exact ⟨rfl, by decide⟩
  ⟨hroot, hitems,
    kd_tree_containment_invariant witnessEnv [((0 : ℕ), smallEntity)] witnessRoot
      hroot hitems⟩

end QuickNav
